import Mathlib

/-!
Shallow embedding of the optimistic sync transaction engine of
`effect-db-collection` (src/src/utils/send-transaction.ts,
src/src/utils/rollback-transaction.ts, and the refs-based
`runInitialSync` of src/src/local/collection.ts lines 258-281).

The engine threads two pieces of state:
  * `Refs` — the `currentData` / `originalData` Effect refs
    (`CollectionState.items` and the rollback `Snapshot`);
  * a sink log — the ordered list of `begin` / `write(change)` / `commit`
    operations attempted on the TanStack sync sink, each paired with the
    Boolean outcome the sink returned for that attempt.

Sink failures are injected through a behaviour function `SinkB` deciding,
from the log so far and the attempted operation, whether the operation
succeeds.  Effect outcomes are modelled by `Outcome`: `ok` (success),
`fail` (typed error channel, what `Effect.catchAll` catches) and `die`
(a defect from `Effect.dieMessage`, which `catchAll` does not catch).
-/

namespace EffectColl

/-- The change types of `@tanstack/react-db` `ChangeMessage` / mutation types. -/
inductive ChangeType : Type
  | insert
  | update
  | delete
deriving DecidableEq, Repr

/-- A sink change message: `{type, value}` as passed to `syncParams.write`. -/
structure Change (α : Type) : Type where
  type : ChangeType
  value : α
deriving DecidableEq, Repr

/-- One operation attempted on the sync sink (`begin` / `write` / `commit`). -/
inductive SinkOp (α : Type) : Type
  | beginTx
  | write (c : Change α)
  | commitTx
deriving DecidableEq, Repr

/-- The sink log: every operation attempted, paired with whether it succeeded. -/
abbrev Log (α : Type) : Type := List (SinkOp α × Bool)

/-- Sink behaviour: decides, from the log so far and the attempted operation,
whether the sink operation succeeds (`Effect.try` succeeding) or throws. -/
abbrev SinkB (α : Type) : Type := Log α → SinkOp α → Bool

/-- The typed errors of `src/src/local/errors.ts` raised by the engine. -/
inductive CollErr (α : Type) : Type
  | collectionHandlerError
  | beginSyncError
  | deleteCollectionItemError (item : α)
  | createCollectionItemError (item : α)
  | updateCollectionItemError (item : α)
  | commitSyncError
  | syncDataResponseError
deriving DecidableEq, Repr

/-- Effect outcome: success, typed error (error channel), or defect
(`Effect.dieMessage`); `Effect.catchAll` recovers `fail` but not `die`. -/
inductive Outcome (ε : Type) (α : Type) : Type
  | ok (value : α)
  | fail (error : ε)
  | die (message : String)
deriving DecidableEq, Repr

/-- The mutable refs of the engine (`src/src/types/refs.ts`):
`currentData` is `CollectionState.items`, `originalData` the `Snapshot`. -/
structure Refs (α : Type) : Type where
  currentData : List α
  originalData : Option (List α)
deriving DecidableEq, Repr

/-- One entry of `params.transaction.mutations`: key, mutation type, and the
optimistically `modified` item. -/
structure Mutation (κ : Type) (α : Type) : Type where
  key : κ
  type : ChangeType
  modified : α
deriving DecidableEq, Repr

/-- The result a mutation handler can resolve with: nothing (`void`), an
explicit canonical item list, or a `RefetchResponse`. -/
inductive HandlerResult (α : Type) : Type
  | empty
  | items (canonical : List α)
  | refetch (refetch : Bool)
deriving DecidableEq, Repr

/-- Result of running one engine effect: final refs, final sink log, outcome. -/
structure EffResult (α : Type) : Type where
  refs : Refs α
  log : Log α
  out : Outcome (CollErr α) Unit
deriving DecidableEq, Repr

/-- Sequential `Effect.all` of sink writes built by `mk`, failing fast with
`err item` on the first write the sink rejects (the `Effect.try` wrappers of
`CollectionService.write`).  Returns the extended log and the error, if any. -/
def writeAll (sb : SinkB α) (log : Log α) (mk : α → SinkOp α) (err : α → CollErr α) :
    List α → Log α × Option (CollErr α)
  | [] => (log, none)
  | item :: rest =>
    let okW := sb log (mk item)
    if okW then writeAll sb (log ++ [(mk item, true)]) mk err rest
    else (log ++ [(mk item, false)], some (err item))

/-- `removeOptimisticKeys` of src/src/utils/send-transaction.ts lines 18-27:
snapshot `currentData` into `originalData`, then drop from `currentData`
every item whose key is among the optimistic keys. -/
def removeOptimisticKeys [DecidableEq κ] (getKey : α → κ) (optimisticKeys : List κ)
    (refs : Refs α) : Refs α :=
  { originalData := some refs.currentData
    currentData := refs.currentData.filter (fun item => !optimisticKeys.contains (getKey item)) }

/-- `runInitialSync` of src/src/local/collection.ts lines 258-281: query the
remote source, `begin`, delete every item of the previous in-memory view,
insert every freshly queried item, `commit`, and only then replace
`currentData` with the fresh list.  Failure of each step aborts with the matching
typed error, leaving the refs untouched. -/
def runInitialSync (sb : SinkB α) (query : Except Unit (List α)) (refs : Refs α)
    (log : Log α) : EffResult α :=
  match query with
  | .error _ => ⟨refs, log, .fail .syncDataResponseError⟩
  | .ok data =>
    let okB := sb log .beginTx
    let log1 := log ++ [(SinkOp.beginTx, okB)]
    if okB then
      match writeAll sb log1 (fun i => .write ⟨.delete, i⟩)
          (fun i => .deleteCollectionItemError i) refs.currentData with
      | (log2, some e) => ⟨refs, log2, .fail e⟩
      | (log2, none) =>
        match writeAll sb log2 (fun i => .write ⟨.insert, i⟩)
            (fun i => .createCollectionItemError i) data with
        | (log3, some e) => ⟨refs, log3, .fail e⟩
        | (log3, none) =>
          let okC := sb log3 .commitTx
          let log4 := log3 ++ [(SinkOp.commitTx, okC)]
          if okC then ⟨{ refs with currentData := data }, log4, .ok ()⟩
          else ⟨refs, log4, .fail .commitSyncError⟩
    else ⟨refs, log1, .fail .beginSyncError⟩

/-- `sendTransaction` of src/src/utils/send-transaction.ts lines 29-91.
`handler` is the already-determined result of the type-specific mutation
handler effect (`.error` meaning the handler failed), `query` the result the
remote data source would give a refetch-triggered `runInitialSync`. -/
def sendTransaction [DecidableEq κ] (getKey : α → κ) (muts : List (Mutation κ α))
    (handler : Except Unit (HandlerResult α)) (sb : SinkB α)
    (query : Except Unit (List α)) (refs : Refs α) (log : Log α) : EffResult α :=
  let optimisticKeys := muts.map (·.key)
  match handler with
  | .error _ => ⟨refs, log, .fail .collectionHandlerError⟩
  | .ok serverResponse =>
    let okB := sb log .beginTx
    let log1 := log ++ [(SinkOp.beginTx, okB)]
    if okB then
      match writeAll sb log1 (fun i => .write ⟨.delete, i⟩)
          (fun i => .deleteCollectionItemError i)
          ((muts.filter (fun m => m.type = ChangeType.delete)).map (·.modified)) with
      | (log2, some e) => ⟨refs, log2, .fail e⟩
      | (log2, none) =>
        match serverResponse with
        | .empty =>
          let okC := sb log2 .commitTx
          let log3 := log2 ++ [(SinkOp.commitTx, okC)]
          if okC then ⟨refs, log3, .ok ()⟩ else ⟨refs, log3, .fail .commitSyncError⟩
        | .items canonical =>
          let refs1 := removeOptimisticKeys getKey optimisticKeys refs
          let refs2 := { refs1 with currentData := refs1.currentData ++ canonical }
          match writeAll sb log2 (fun i => .write ⟨.delete, i⟩)
              (fun i => .deleteCollectionItemError i)
              ((muts.filter (fun m => ¬m.type = ChangeType.delete)).map (·.modified)) with
          | (log3, some e) => ⟨refs2, log3, .fail e⟩
          | (log3, none) =>
            match writeAll sb log3 (fun i => .write ⟨.insert, i⟩)
                (fun i => .createCollectionItemError i) canonical with
            | (log4, some e) => ⟨refs2, log4, .fail e⟩
            | (log4, none) =>
              let okC := sb log4 .commitTx
              let log5 := log4 ++ [(SinkOp.commitTx, okC)]
              if okC then ⟨refs2, log5, .ok ()⟩ else ⟨refs2, log5, .fail .commitSyncError⟩
        | .refetch b =>
          let okC := sb log2 .commitTx
          let log3 := log2 ++ [(SinkOp.commitTx, okC)]
          if okC then
            let refs1 := removeOptimisticKeys getKey optimisticKeys refs
            if b then
              let r := runInitialSync sb query refs1 log3
              match r.out with
              | .fail _ => ⟨r.refs, r.log, .ok ()⟩
              | o => ⟨r.refs, r.log, o⟩
            else ⟨refs1, log3, .ok ()⟩
          else ⟨refs, log3, .fail .commitSyncError⟩
    else ⟨refs, log1, .fail .beginSyncError⟩

/-- The body of `rollbackTransaction` (src/src/utils/rollback-transaction.ts
lines 14-42), before the final `Effect.catchAll`: `begin`, delete every
`modified` item of every mutation, read the snapshot; if absent, `commit` and die
with `Effect.dieMessage`; if present, restore `currentData` to the snapshot,
re-insert the snapshot items whose key is among the optimistic keys, and
`commit`.  The snapshot ref itself is never written. -/
def rollbackTransactionRaw [DecidableEq κ] (getKey : α → κ) (muts : List (Mutation κ α))
    (sb : SinkB α) (refs : Refs α) (log : Log α) : EffResult α :=
  let optimisticKeys := muts.map (·.key)
  let itemsToDelete := muts.map (·.modified)
  let okB := sb log .beginTx
  let log1 := log ++ [(SinkOp.beginTx, okB)]
  if okB then
    match writeAll sb log1 (fun i => .write ⟨.delete, i⟩)
        (fun i => .deleteCollectionItemError i) itemsToDelete with
    | (log2, some e) => ⟨refs, log2, .fail e⟩
    | (log2, none) =>
      match refs.originalData with
      | none =>
        let okC := sb log2 .commitTx
        let log3 := log2 ++ [(SinkOp.commitTx, okC)]
        if okC then ⟨refs, log3, .die ("[rollbackTransaction]: nothing to restore")⟩
        else ⟨refs, log3, .fail .commitSyncError⟩
      | some orig =>
        let refs1 := { refs with currentData := orig }
        match writeAll sb log2 (fun i => .write ⟨.insert, i⟩)
            (fun i => .createCollectionItemError i)
            (orig.filter (fun i => optimisticKeys.contains (getKey i))) with
        | (log3, some e) => ⟨refs1, log3, .fail e⟩
        | (log3, none) =>
          let okC := sb log3 .commitTx
          let log4 := log3 ++ [(SinkOp.commitTx, okC)]
          if okC then ⟨refs1, log4, .ok ()⟩ else ⟨refs1, log4, .fail .commitSyncError⟩
  else ⟨refs, log1, .fail .beginSyncError⟩

/-- `rollbackTransaction` as exported: the raw protocol piped through
`Effect.catchAll(logError)`, which recovers every typed error into success
but lets defects (`die`) through. -/
def rollbackTransaction [DecidableEq κ] (getKey : α → κ) (muts : List (Mutation κ α))
    (sb : SinkB α) (refs : Refs α) (log : Log α) : EffResult α :=
  let r := rollbackTransactionRaw getKey muts sb refs log
  match r.out with
  | .fail _ => ⟨r.refs, r.log, .ok ()⟩
  | o => ⟨r.refs, r.log, o⟩

/-- Number of `write` operations recorded in a sink log. -/
def countWrites (log : Log α) : Nat :=
  (log.filter (fun e => match e.1 with | .write _ => true | _ => false)).length

/-- Concrete item type for the examples of the spec: `{id, v}` keyed by `id`. -/
structure Todo : Type where
  id : Nat
  v : String
deriving DecidableEq, Repr

/-- The example key extractor: `getKey = (item) => item.id`. -/
def todoKey (t : Todo) : Nat := t.id

/-- The always-succeeding sink behaviour (no injected failures). -/
def sinkOkAll : SinkB α := fun _ _ => true

/-! ### Helper lemmas -/

theorem writeAll_allOk (sb : SinkB α) (h : ∀ l op, sb l op = true) (mk : α → SinkOp α)
    (err : α → CollErr α) (items : List α) (log : Log α) :
    writeAll sb log mk err items = (log ++ items.map (fun i => (mk i, true)), none) := by
  induction items generalizing log with
  | nil => simp [writeAll]
  | cons i rest ih => simp [writeAll, h, ih]

/-- If a `writeAll` run reports no error, its log extension is exactly the
successful write attempts, in order. -/
theorem writeAll_none (sb : SinkB α) (mk : α → SinkOp α) (err : α → CollErr α)
    (items : List α) (log log' : Log α)
    (h : writeAll sb log mk err items = (log', none)) :
    log' = log ++ items.map (fun i => (mk i, true)) := by
  induction items generalizing log with
  | nil =>
    simp [writeAll] at h
    simp [h]
  | cons i rest ih =>
    by_cases hw : sb log (mk i) = true
    · simp [writeAll, hw] at h
      have := ih (log ++ [(mk i, true)]) h
      simp [this]
    · simp [writeAll, hw] at h

/-- Every log entry `writeAll` appends is one of the write attempts built by
`mk` (never a `begin` or `commit`). -/
theorem writeAll_segment (sb : SinkB α) (mk : α → SinkOp α) (err : α → CollErr α)
    (items : List α) (log : Log α) :
    ∃ seg, (writeAll sb log mk err items).1 = log ++ seg ∧
      ∀ x ∈ seg, ∃ i b, x = (mk i, b) := by
  induction items generalizing log with
  | nil => exact ⟨[], by simp [writeAll], by simp⟩
  | cons i rest ih =>
    by_cases hw : sb log (mk i) = true
    · obtain ⟨seg, hseg, hmem⟩ := ih (log ++ [(mk i, true)])
      refine ⟨(mk i, true) :: seg, ?_, ?_⟩
      · simp [writeAll, hw, hseg]
      · intro x hx
        rcases List.mem_cons.mp hx with hx | hx
        · exact ⟨i, true, hx⟩
        · exact hmem x hx
    · refine ⟨[(mk i, false)], ?_, ?_⟩
      · simp [writeAll, hw]
      · intro x hx
        simp at hx
        exact ⟨i, false, by simp [hx]⟩

/-- Closed form of `runInitialSync` when the query succeeds and the sink
accepts every operation. -/
theorem runInitialSync_allOk (sb : SinkB α) (h : ∀ l op, sb l op = true)
    (data : List α) (refs : Refs α) (log : Log α) :
    runInitialSync sb (.ok data) refs log =
      ⟨{ refs with currentData := data },
        log ++ [(SinkOp.beginTx, true)]
          ++ refs.currentData.map (fun i => (SinkOp.write ⟨ChangeType.delete, i⟩, true))
          ++ data.map (fun i => (SinkOp.write ⟨ChangeType.insert, i⟩, true))
          ++ [(SinkOp.commitTx, true)],
        .ok ()⟩ := by
  simp [runInitialSync, h, writeAll_allOk sb h]

/-- Case analysis on `runInitialSync`: either it succeeds, the query had
succeeded, and only `currentData` was replaced by the queried list; or it
stops with a typed error, leaving the refs untouched. -/
theorem runInitialSync_spec (sb : SinkB α) (q : Except Unit (List α)) (refs : Refs α)
    (log : Log α) :
    ((runInitialSync sb q refs log).out = .ok () ∧
      ∃ data, q = .ok data ∧
        (runInitialSync sb q refs log).refs = { refs with currentData := data }) ∨
    ((runInitialSync sb q refs log).refs = refs ∧
      ∃ e, (runInitialSync sb q refs log).out = .fail e) := by
  unfold runInitialSync
  match q with
  | .error _ => right; exact ⟨rfl, _, rfl⟩
  | .ok data =>
    simp only
    split
    · split
      · right; exact ⟨rfl, _, rfl⟩
      · split
        · right; exact ⟨rfl, _, rfl⟩
        · split
          · left; exact ⟨rfl, data, rfl, rfl⟩
          · right; exact ⟨rfl, _, rfl⟩
    · right; exact ⟨rfl, _, rfl⟩

/-- Closed form of the canonical-list settlement branch when the sink accepts
every operation. -/
theorem sendTransaction_items_allOk [DecidableEq κ] (getKey : α → κ)
    (muts : List (Mutation κ α)) (canonical : List α) (sb : SinkB α)
    (h : ∀ l op, sb l op = true) (q : Except Unit (List α)) (refs : Refs α) (log : Log α) :
    sendTransaction getKey muts (.ok (.items canonical)) sb q refs log =
      ⟨⟨refs.currentData.filter
            (fun i => !(muts.map (·.key)).contains (getKey i)) ++ canonical,
          some refs.currentData⟩,
        log ++ [(SinkOp.beginTx, true)]
          ++ ((muts.filter (fun m => m.type = ChangeType.delete)).map (·.modified)).map
              (fun i => (SinkOp.write ⟨ChangeType.delete, i⟩, true))
          ++ ((muts.filter (fun m => ¬m.type = ChangeType.delete)).map (·.modified)).map
              (fun i => (SinkOp.write ⟨ChangeType.delete, i⟩, true))
          ++ canonical.map (fun i => (SinkOp.write ⟨ChangeType.insert, i⟩, true))
          ++ [(SinkOp.commitTx, true)],
        .ok ()⟩ := by
  simp [sendTransaction, h, writeAll_allOk sb h, removeOptimisticKeys]

/-- Closed form of the `{refetch: false}` settlement branch when the sink
accepts every operation. -/
theorem sendTransaction_refetchFalse_allOk [DecidableEq κ] (getKey : α → κ)
    (muts : List (Mutation κ α)) (sb : SinkB α) (h : ∀ l op, sb l op = true)
    (q : Except Unit (List α)) (refs : Refs α) (log : Log α) :
    sendTransaction getKey muts (.ok (.refetch false)) sb q refs log =
      ⟨⟨refs.currentData.filter (fun i => !(muts.map (·.key)).contains (getKey i)),
          some refs.currentData⟩,
        log ++ [(SinkOp.beginTx, true)]
          ++ ((muts.filter (fun m => m.type = ChangeType.delete)).map (·.modified)).map
              (fun i => (SinkOp.write ⟨ChangeType.delete, i⟩, true))
          ++ [(SinkOp.commitTx, true)],
        .ok ()⟩ := by
  simp [sendTransaction, h, writeAll_allOk sb h, removeOptimisticKeys]

/-- Closed form of rollback with a present snapshot when the sink accepts
every operation. -/
theorem rollback_some_allOk [DecidableEq κ] (getKey : α → κ)
    (muts : List (Mutation κ α)) (sb : SinkB α) (h : ∀ l op, sb l op = true)
    (refs : Refs α) (orig : List α) (hs : refs.originalData = some orig) (log : Log α) :
    rollbackTransaction getKey muts sb refs log =
      ⟨⟨orig, some orig⟩,
        log ++ [(SinkOp.beginTx, true)]
          ++ (muts.map (·.modified)).map
              (fun i => (SinkOp.write ⟨ChangeType.delete, i⟩, true))
          ++ (orig.filter (fun i => (muts.map (·.key)).contains (getKey i))).map
              (fun i => (SinkOp.write ⟨ChangeType.insert, i⟩, true))
          ++ [(SinkOp.commitTx, true)],
        .ok ()⟩ := by
  have hrefs : refs = ⟨refs.currentData, some orig⟩ := by
    cases refs; simp_all
  rw [hrefs]
  simp [rollbackTransaction, rollbackTransactionRaw, h, writeAll_allOk sb h]

/-- Closed form of rollback with no snapshot when the sink accepts every
operation: the deletes are committed and the effect dies. -/
theorem rollback_none_allOk [DecidableEq κ] (getKey : α → κ)
    (muts : List (Mutation κ α)) (sb : SinkB α) (h : ∀ l op, sb l op = true)
    (refs : Refs α) (hs : refs.originalData = none) (log : Log α) :
    rollbackTransaction getKey muts sb refs log =
      ⟨refs,
        log ++ [(SinkOp.beginTx, true)]
          ++ (muts.map (·.modified)).map
              (fun i => (SinkOp.write ⟨ChangeType.delete, i⟩, true))
          ++ [(SinkOp.commitTx, true)],
        .die ("[rollbackTransaction]: nothing to restore")⟩ := by
  have hrefs : refs = ⟨refs.currentData, none⟩ := by
    cases refs; simp_all
  rw [hrefs]
  simp [rollbackTransaction, rollbackTransactionRaw, h, writeAll_allOk sb h]

/-- With a snapshot present, the raw rollback protocol never dies: its
outcome is success or a typed error. -/
theorem rollbackRaw_no_die_of_some [DecidableEq κ] (getKey : α → κ)
    (muts : List (Mutation κ α)) (sb : SinkB α) (refs : Refs α) (orig : List α)
    (hs : refs.originalData = some orig) (log : Log α) :
    ∀ msg, (rollbackTransactionRaw getKey muts sb refs log).out ≠ .die msg := by
  intro msg
  unfold rollbackTransactionRaw
  simp only [hs]
  split
  · split
    · simp
    · split
      · simp
      · split <;> simp
  · simp

theorem countWrites_append (a b : Log α) :
    countWrites (a ++ b) = countWrites a + countWrites b := by
  simp [countWrites, List.filter_append]

theorem countWrites_map_write (f : α → Change α) (l : List α) :
    countWrites (l.map (fun i => (SinkOp.write (f i), true))) = l.length := by
  induction l with
  | nil => simp [countWrites]
  | cons i rest ih => simpa [countWrites, List.filter] using ih

theorem countWrites_nil : countWrites ([] : Log α) = 0 := rfl

theorem countWrites_beginTx (b : Bool) :
    countWrites [((SinkOp.beginTx : SinkOp α), b)] = 0 := rfl

theorem countWrites_commitTx (b : Bool) :
    countWrites [((SinkOp.commitTx : SinkOp α), b)] = 0 := rfl

theorem countWrites_cons_beginTx (b : Bool) (l : Log α) :
    countWrites (((SinkOp.beginTx : SinkOp α), b) :: l) = countWrites l := by
  simp [countWrites, List.filter]

theorem countWrites_cons_commitTx (b : Bool) (l : Log α) :
    countWrites (((SinkOp.commitTx : SinkOp α), b) :: l) = countWrites l := by
  simp [countWrites, List.filter]

/-! ### Claims -/

/-- C1, counterexample to the claim as stated: in the example of the spec
(local items `[{1,a},{2,b}]`, update of id 1 returning canonical
`[{1,A}]`), the final `CollectionState.items` sequence is
`[{2,b},{1,A}]` — the canonical item is appended after the retained
rows — not the claimed `[{1,A},{2,b}]`. -/
theorem C1_counterexample :
    (sendTransaction todoKey [⟨1, ChangeType.update, ⟨1, "A"⟩⟩]
        (.ok (.items [⟨1, "A"⟩])) sinkOkAll (.ok [])
        ⟨[⟨1, "a"⟩, ⟨2, "b"⟩], none⟩ []).refs.currentData = [⟨2, "b"⟩, ⟨1, "A"⟩] ∧
    ¬(sendTransaction todoKey [⟨1, ChangeType.update, ⟨1, "A"⟩⟩]
        (.ok (.items [⟨1, "A"⟩])) sinkOkAll (.ok [])
        ⟨[⟨1, "a"⟩, ⟨2, "b"⟩], none⟩ []).refs.currentData = [⟨1, "A"⟩, ⟨2, "b"⟩] := by
  decide

/-- C1 (amended: the final sequence keeps the retained rows first and appends
the canonical items after them): settling a mutation batch whose handler
returns a canonical item list snapshots the pre-mutation items into
`originalData`, replaces `currentData` by the pre-mutation items minus every
entry whose key matches a mutation key with the canonical items appended,
and the sink transaction is begin, the deletes of the delete mutations,
deletes of the modified items of the non-delete mutations, inserts of every canonical item,
commit. -/
theorem C1_canonical_settlement [DecidableEq κ] (getKey : α → κ)
    (muts : List (Mutation κ α)) (canonical : List α) (sb : SinkB α)
    (h : ∀ l op, sb l op = true) (q : Except Unit (List α)) (refs : Refs α) (log : Log α) :
    sendTransaction getKey muts (.ok (.items canonical)) sb q refs log =
      ⟨⟨refs.currentData.filter
            (fun i => !(muts.map (·.key)).contains (getKey i)) ++ canonical,
          some refs.currentData⟩,
        log ++ [(SinkOp.beginTx, true)]
          ++ ((muts.filter (fun m => m.type = ChangeType.delete)).map (·.modified)).map
              (fun i => (SinkOp.write ⟨ChangeType.delete, i⟩, true))
          ++ ((muts.filter (fun m => ¬m.type = ChangeType.delete)).map (·.modified)).map
              (fun i => (SinkOp.write ⟨ChangeType.delete, i⟩, true))
          ++ canonical.map (fun i => (SinkOp.write ⟨ChangeType.insert, i⟩, true))
          ++ [(SinkOp.commitTx, true)],
        .ok ()⟩ :=
  sendTransaction_items_allOk getKey muts canonical sb h q refs log

/-- C1, witness: the example of the spec run in full — final items
`[{2,b},{1,A}]`, sink saw exactly begin, delete(id 1), insert(id 1, "A"),
commit. -/
theorem C1_witness :
    sendTransaction todoKey [⟨1, ChangeType.update, ⟨1, "A"⟩⟩]
        (.ok (.items [⟨1, "A"⟩])) sinkOkAll (.ok [])
        ⟨[⟨1, "a"⟩, ⟨2, "b"⟩], none⟩ [] =
      ⟨⟨[⟨2, "b"⟩, ⟨1, "A"⟩], some [⟨1, "a"⟩, ⟨2, "b"⟩]⟩,
        [(SinkOp.beginTx, true),
          (SinkOp.write ⟨ChangeType.delete, ⟨1, "A"⟩⟩, true),
          (SinkOp.write ⟨ChangeType.insert, ⟨1, "A"⟩⟩, true),
          (SinkOp.commitTx, true)],
        .ok ()⟩ :=
  (C1_canonical_settlement todoKey [⟨1, ChangeType.update, ⟨1, "A"⟩⟩] [⟨1, "A"⟩]
      sinkOkAll (fun _ _ => rfl) (.ok []) ⟨[⟨1, "a"⟩, ⟨2, "b"⟩], none⟩ []).trans
    (by decide)

/-- C2, counterexample to the claim as stated: the snapshot is not destroyed
when the settlement attempt resolves.  After a successful canonical-list
settlement `originalData` still holds the pre-mutation items, and after a
completed rollback it still holds the consumed snapshot. -/
theorem C2_counterexample :
    (sendTransaction todoKey [⟨8, ChangeType.insert, ⟨8, "q"⟩⟩]
        (.ok (.items [⟨8, "Q"⟩])) sinkOkAll (.ok [])
        ⟨[⟨7, "p"⟩], none⟩ []).refs.originalData = some [⟨7, "p"⟩] ∧
    (rollbackTransaction todoKey [⟨8, ChangeType.insert, ⟨8, "q"⟩⟩] sinkOkAll
        ⟨[⟨8, "Q"⟩], some [⟨7, "p"⟩]⟩ []).refs.originalData = some [⟨7, "p"⟩] := by
  decide

/-- C2 (amended): the snapshot persists after the attempt resolves — a
successful canonical-list settlement leaves `originalData` holding the
pre-mutation items it captured, and a completed rollback leaves the consumed
snapshot in place; the slot is only ever overwritten by the capture of the next
settlement or reset externally at teardown. -/
theorem C2_snapshot_persists [DecidableEq κ] (getKey : α → κ)
    (muts : List (Mutation κ α)) (canonical : List α) (sb : SinkB α)
    (h : ∀ l op, sb l op = true) (q : Except Unit (List α)) (refs : Refs α)
    (orig : List α) (log : Log α) :
    ((sendTransaction getKey muts (.ok (.items canonical)) sb q refs log).refs.originalData
        = some refs.currentData) ∧
    (refs.originalData = some orig →
      (rollbackTransaction getKey muts sb refs log).refs.originalData = some orig) := by
  constructor
  · rw [sendTransaction_items_allOk getKey muts canonical sb h q refs log]
  · intro hs
    rw [rollback_some_allOk getKey muts sb h refs orig hs log]

/-- C2, witness: at a concrete rollback input with a present snapshot, the
snapshot survives the completed rollback. -/
theorem C2_witness :
    (rollbackTransaction todoKey [⟨8, ChangeType.insert, ⟨8, "q"⟩⟩] sinkOkAll
        ⟨[⟨8, "Q"⟩], some [⟨7, "p"⟩]⟩ []).refs.originalData = some [⟨7, "p"⟩] :=
  (C2_snapshot_persists todoKey [⟨8, ChangeType.insert, ⟨8, "q"⟩⟩] []
      sinkOkAll (fun _ _ => rfl) (.ok []) ⟨[⟨8, "Q"⟩], some [⟨7, "p"⟩]⟩ [⟨7, "p"⟩] []).2 rfl

/-- C3: `runInitialSync` replaces `CollectionState.items` with the freshly
queried list only when it succeeds (which requires the commit to have
succeeded); any failure of query, begin, a clear-phase delete, an insert, or
the commit aborts with a typed error and leaves the refs at their prior
value; a failed remote query in particular aborts with
`syncDataResponseError`. -/
theorem C3_sync_replaces_only_after_commit (sb : SinkB α) (q : Except Unit (List α))
    (refs : Refs α) (log : Log α) :
    ((runInitialSync sb q refs log).out = .ok () →
      ∃ data, q = .ok data ∧
        (runInitialSync sb q refs log).refs = { refs with currentData := data }) ∧
    ((runInitialSync sb q refs log).out ≠ .ok () →
      (runInitialSync sb q refs log).refs = refs ∧
        ∃ e, (runInitialSync sb q refs log).out = .fail e) ∧
    (q = .error () → (runInitialSync sb q refs log).out = .fail .syncDataResponseError) := by
  refine ⟨?_, ?_, ?_⟩
  · intro hok
    rcases runInitialSync_spec sb q refs log with ⟨_, hd⟩ | ⟨_, e, he⟩
    · exact hd
    · rw [he] at hok
      exact absurd hok (by simp)
  · intro hne
    rcases runInitialSync_spec sb q refs log with ⟨hok, _⟩ | ⟨hrefs, he⟩
    · exact absurd hok hne
    · exact ⟨hrefs, he⟩
  · intro hq
    subst hq
    rfl

/-- C3, witness: with a sink rejecting every operation, the sync on
`[{1,a}]` from prior state `[{2,b}]` fails with a typed error and leaves the
refs untouched. -/
theorem C3_witness :
    (runInitialSync (fun _ _ => false) (.ok [⟨1, "a"⟩])
        (⟨[⟨2, "b"⟩], none⟩ : Refs Todo) []).refs = ⟨[⟨2, "b"⟩], none⟩ ∧
    ∃ e, (runInitialSync (fun _ _ => false) (.ok [⟨1, "a"⟩])
        (⟨[⟨2, "b"⟩], none⟩ : Refs Todo) []).out = .fail e :=
  (C3_sync_replaces_only_after_commit (fun _ _ => false) (.ok [⟨1, "a"⟩])
      (⟨[⟨2, "b"⟩], none⟩ : Refs Todo) []).2.1 (by decide)

/-- C4: rollback with a present snapshot restores `currentData` to exactly
the snapshot, and within one begin/commit sink transaction deletes the
modified item of every mutation, then re-inserts exactly those snapshot
items whose key is among the optimistic keys of the batch, then commits — rows with other
keys receive no writes. -/
theorem C4_rollback_restores [DecidableEq κ] (getKey : α → κ)
    (muts : List (Mutation κ α)) (sb : SinkB α) (h : ∀ l op, sb l op = true)
    (refs : Refs α) (orig : List α) (hs : refs.originalData = some orig) (log : Log α) :
    rollbackTransaction getKey muts sb refs log =
      ⟨⟨orig, some orig⟩,
        log ++ [(SinkOp.beginTx, true)]
          ++ (muts.map (·.modified)).map
              (fun i => (SinkOp.write ⟨ChangeType.delete, i⟩, true))
          ++ (orig.filter (fun i => (muts.map (·.key)).contains (getKey i))).map
              (fun i => (SinkOp.write ⟨ChangeType.insert, i⟩, true))
          ++ [(SinkOp.commitTx, true)],
        .ok ()⟩ :=
  rollback_some_allOk getKey muts sb h refs orig hs log

/-- C4, witness: the example of the spec — snapshot `[{1,x},{2,y}]`, failed
mutation on id 2 with modified `{2,z}`: post-rollback state equals the
snapshot and the sink sees begin, delete({2,z}), insert({2,y}), commit; the
id-1 row receives no write. -/
theorem C4_witness :
    rollbackTransaction todoKey [⟨2, ChangeType.update, ⟨2, "z"⟩⟩] sinkOkAll
        ⟨[⟨2, "z"⟩], some [⟨1, "x"⟩, ⟨2, "y"⟩]⟩ [] =
      ⟨⟨[⟨1, "x"⟩, ⟨2, "y"⟩], some [⟨1, "x"⟩, ⟨2, "y"⟩]⟩,
        [(SinkOp.beginTx, true),
          (SinkOp.write ⟨ChangeType.delete, ⟨2, "z"⟩⟩, true),
          (SinkOp.write ⟨ChangeType.insert, ⟨2, "y"⟩⟩, true),
          (SinkOp.commitTx, true)],
        .ok ()⟩ :=
  (C4_rollback_restores todoKey [⟨2, ChangeType.update, ⟨2, "z"⟩⟩] sinkOkAll
      (fun _ _ => rfl) ⟨[⟨2, "z"⟩], some [⟨1, "x"⟩, ⟨2, "y"⟩]⟩
      [⟨1, "x"⟩, ⟨2, "y"⟩] rfl []).trans (by decide)

/-- C5: rollback with no snapshot commits the batch deletes already written,
raises the missing snapshot as a fatal defect (a `die`, not a silent no-op),
attempts no restoration, and leaves the refs unchanged. -/
theorem C5_missing_snapshot_fatal [DecidableEq κ] (getKey : α → κ)
    (muts : List (Mutation κ α)) (sb : SinkB α) (h : ∀ l op, sb l op = true)
    (refs : Refs α) (hs : refs.originalData = none) (log : Log α) :
    rollbackTransaction getKey muts sb refs log =
      ⟨refs,
        log ++ [(SinkOp.beginTx, true)]
          ++ (muts.map (·.modified)).map
              (fun i => (SinkOp.write ⟨ChangeType.delete, i⟩, true))
          ++ [(SinkOp.commitTx, true)],
        .die ("[rollbackTransaction]: nothing to restore")⟩ :=
  rollback_none_allOk getKey muts sb h refs hs log

/-- C5, witness: invoking rollback with no snapshot at a concrete input
commits the delete and dies, with `currentData` and `originalData`
unchanged. -/
theorem C5_witness :
    rollbackTransaction todoKey [⟨2, ChangeType.update, ⟨2, "z"⟩⟩] sinkOkAll
        ⟨[⟨2, "z"⟩], none⟩ [] =
      ⟨⟨[⟨2, "z"⟩], none⟩,
        [(SinkOp.beginTx, true),
          (SinkOp.write ⟨ChangeType.delete, ⟨2, "z"⟩⟩, true),
          (SinkOp.commitTx, true)],
        .die ("[rollbackTransaction]: nothing to restore")⟩ :=
  (C5_missing_snapshot_fatal todoKey [⟨2, ChangeType.update, ⟨2, "z"⟩⟩] sinkOkAll
      (fun _ _ => rfl) ⟨[⟨2, "z"⟩], none⟩ rfl []).trans (by decide)

/-- C6, counterexample to the claim as stated: in the missing-snapshot case
`rollbackTransaction` does not complete silently — the `Effect.dieMessage`
defect is not recovered by the final `Effect.catchAll` and propagates to the
caller. -/
theorem C6_counterexample :
    (rollbackTransaction todoKey [⟨3, ChangeType.insert, ⟨3, "c"⟩⟩] sinkOkAll
        (⟨[⟨3, "c"⟩], none⟩ : Refs Todo) []).out =
      .die ("[rollbackTransaction]: nothing to restore") ∧
    ¬(rollbackTransaction todoKey [⟨3, ChangeType.insert, ⟨3, "c"⟩⟩] sinkOkAll
        (⟨[⟨3, "c"⟩], none⟩ : Refs Todo) []).out = .ok () := by
  decide

/-- C6 (amended): every typed failure inside rollback (begin, write, or
commit on the sink) is caught and logged, so `rollbackTransaction` never
resolves with an error, and with a snapshot present it always completes
successfully; only the missing-snapshot case escapes, as a defect rather
than an error. -/
theorem C6_rollback_catches_errors [DecidableEq κ] (getKey : α → κ)
    (muts : List (Mutation κ α)) (sb : SinkB α) (refs : Refs α) (log : Log α) :
    (∀ e, (rollbackTransaction getKey muts sb refs log).out ≠ .fail e) ∧
    (∀ orig, refs.originalData = some orig →
      (rollbackTransaction getKey muts sb refs log).out = .ok ()) := by
  constructor
  · intro e
    rcases hr : (rollbackTransactionRaw getKey muts sb refs log).out with v | e' | msg <;>
      simp [rollbackTransaction, hr]
  · intro orig hs
    have hnd := rollbackRaw_no_die_of_some getKey muts sb refs orig hs log
    rcases hr : (rollbackTransactionRaw getKey muts sb refs log).out with v | e' | msg
    · simp [rollbackTransaction, hr]
    · simp [rollbackTransaction, hr]
    · exact absurd hr (hnd msg)

/-- C6, witness: with a sink whose `begin` throws and a snapshot present,
rollback swallows the `beginSyncError` and completes successfully. -/
theorem C6_witness :
    (rollbackTransaction todoKey [⟨2, ChangeType.update, ⟨2, "n"⟩⟩]
        (fun _ _ => false) (⟨[⟨2, "n"⟩], some [⟨2, "m"⟩]⟩ : Refs Todo) []).out
      = .ok () :=
  (C6_rollback_catches_errors todoKey [⟨2, ChangeType.update, ⟨2, "n"⟩⟩]
      (fun _ _ => false) ⟨[⟨2, "n"⟩], some [⟨2, "m"⟩]⟩ []).2 [⟨2, "m"⟩] rfl

/-- C7, counterexample to the claim as stated: after a `{refetch: false}`
settlement the optimistic rows do not remain in `CollectionState.items` —
`removeOptimisticKeys` strips every entry whose key matches a mutation key,
so from prior items `[{1,a}]` with an update mutation on id 1 the items
become empty. -/
theorem C7_counterexample :
    (sendTransaction todoKey [⟨1, ChangeType.update, ⟨1, "A"⟩⟩]
        (.ok (.refetch false)) sinkOkAll (.ok [])
        ⟨[⟨1, "a"⟩], none⟩ []).refs.currentData = [] ∧
    ¬(⟨1, "A"⟩ : Todo) ∈ (sendTransaction todoKey [⟨1, ChangeType.update, ⟨1, "A"⟩⟩]
        (.ok (.refetch false)) sinkOkAll (.ok [])
        ⟨[⟨1, "a"⟩], none⟩ []).refs.currentData ∧
    ¬(⟨1, "a"⟩ : Todo) ∈ (sendTransaction todoKey [⟨1, ChangeType.update, ⟨1, "A"⟩⟩]
        (.ok (.refetch false)) sinkOkAll (.ok [])
        ⟨[⟨1, "a"⟩], none⟩ []).refs.currentData := by
  decide

/-- C7 (amended): a `{refetch: false}` settlement commits the sink
transaction after only the deletes of the delete mutations, performs no further
sink writes and no resynchronization, and then removes from
`CollectionState.items` every entry whose key matches a mutation key,
snapshotting the pre-mutation items; the optimistic rows persist only in the
sink, not in the in-memory items. -/
theorem C7_refetch_false [DecidableEq κ] (getKey : α → κ)
    (muts : List (Mutation κ α)) (sb : SinkB α) (h : ∀ l op, sb l op = true)
    (q : Except Unit (List α)) (refs : Refs α) (log : Log α) :
    sendTransaction getKey muts (.ok (.refetch false)) sb q refs log =
      ⟨⟨refs.currentData.filter (fun i => !(muts.map (·.key)).contains (getKey i)),
          some refs.currentData⟩,
        log ++ [(SinkOp.beginTx, true)]
          ++ ((muts.filter (fun m => m.type = ChangeType.delete)).map (·.modified)).map
              (fun i => (SinkOp.write ⟨ChangeType.delete, i⟩, true))
          ++ [(SinkOp.commitTx, true)],
        .ok ()⟩ :=
  sendTransaction_refetchFalse_allOk getKey muts sb h q refs log

/-- C7, witness: the counterexample input run in full — begin and commit
only on the sink, items filtered to empty, snapshot captured. -/
theorem C7_witness :
    sendTransaction todoKey [⟨1, ChangeType.update, ⟨1, "A"⟩⟩]
        (.ok (.refetch false)) sinkOkAll (.ok []) ⟨[⟨1, "a"⟩], none⟩ [] =
      ⟨⟨[], some [⟨1, "a"⟩]⟩,
        [(SinkOp.beginTx, true), (SinkOp.commitTx, true)],
        .ok ()⟩ :=
  (C7_refetch_false todoKey [⟨1, ChangeType.update, ⟨1, "A"⟩⟩] sinkOkAll
      (fun _ _ => rfl) (.ok []) ⟨[⟨1, "a"⟩], none⟩ []).trans (by decide)

/-- C8, counterexample to the claim as stated: starting from empty items
with DataSource result `[{1,a}]`, the first sync issues 1 write (no clears,
one insert) while the second issues 2 (one clear, one insert) — the two runs
do not issue an equal number of delete+insert operations. -/
theorem C8_counterexample :
    countWrites (runInitialSync sinkOkAll (.ok [⟨1, "a"⟩])
        (⟨[], none⟩ : Refs Todo) []).log = 1 ∧
    countWrites (runInitialSync sinkOkAll (.ok [⟨1, "a"⟩])
        (runInitialSync sinkOkAll (.ok [⟨1, "a"⟩])
          (⟨[], none⟩ : Refs Todo) []).refs []).log = 2 ∧
    (1 : Nat) ≠ 2 := by
  decide

/-- C8 (amended): with an unchanged DataSource result and an all-accepting
sink, `CollectionState.items` equals the queried list after the first run
and is unchanged by every later run; each run issues (size of its pre-run
items) deletes plus (size of the queried list) inserts, so the second and
every subsequent run issue the same number of delete+insert operations (no
accumulation) — but the count of the first run differs whenever its pre-run
item count differs from the length of the queried list. -/
theorem C8_sync_idempotent (sb : SinkB α) (h : ∀ l op, sb l op = true)
    (data : List α) (refs : Refs α) :
    (runInitialSync sb (.ok data) refs []).refs.currentData = data ∧
    (runInitialSync sb (.ok data)
        (runInitialSync sb (.ok data) refs []).refs []).refs.currentData = data ∧
    countWrites (runInitialSync sb (.ok data) refs []).log
      = refs.currentData.length + data.length ∧
    countWrites (runInitialSync sb (.ok data)
        (runInitialSync sb (.ok data) refs []).refs []).log
      = data.length + data.length ∧
    countWrites (runInitialSync sb (.ok data)
        (runInitialSync sb (.ok data)
          (runInitialSync sb (.ok data) refs []).refs []).refs []).log
      = countWrites (runInitialSync sb (.ok data)
          (runInitialSync sb (.ok data) refs []).refs []).log := by
  have h1 := runInitialSync_allOk sb h data refs []
  rw [h1]
  have h2 := runInitialSync_allOk sb h data { refs with currentData := data } []
  rw [h2]
  have h3 := runInitialSync_allOk sb h data
    { { refs with currentData := data } with currentData := data } []
  rw [h3]
  refine ⟨rfl, rfl, ?_, ?_, ?_⟩ <;>
    simp [countWrites_append, countWrites_map_write, countWrites_nil,
      countWrites_beginTx, countWrites_commitTx, countWrites_cons_beginTx,
      countWrites_cons_commitTx]

/-- C8, witness: from pre-run items `[{1,a}]` (already equal to the
DataSource result), both runs leave the items unchanged and issue 2 writes
each. -/
theorem C8_witness :
    (runInitialSync sinkOkAll (.ok [⟨1, "a"⟩])
        (⟨[⟨1, "a"⟩], none⟩ : Refs Todo) []).refs.currentData = [⟨1, "a"⟩] ∧
    countWrites (runInitialSync sinkOkAll (.ok [⟨1, "a"⟩])
        (⟨[⟨1, "a"⟩], none⟩ : Refs Todo) []).log = 2 :=
  ⟨(C8_sync_idempotent sinkOkAll (fun _ _ => rfl) [⟨1, "a"⟩]
      (⟨[⟨1, "a"⟩], none⟩ : Refs Todo)).1,
    ((C8_sync_idempotent sinkOkAll (fun _ _ => rfl) [⟨1, "a"⟩]
      (⟨[⟨1, "a"⟩], none⟩ : Refs Todo)).2.2.1).trans (by decide)⟩

/-- C9: on a `{refetch: true}` settlement whose sink transaction committed,
if the re-run initial sync fails then `sendTransaction` catches the failure
and completes successfully (so the `Effect.onError` rollback of the caller is
never triggered by a failed refetch-sync), and the items are left at the
value the failed sync left them — the optimistic keys having already been
removed before the sync began. -/
theorem C9_failed_refetch_sync_swallowed [DecidableEq κ] (getKey : α → κ)
    (muts : List (Mutation κ α)) (sb : SinkB α) (q : Except Unit (List α))
    (refs : Refs α) (log2 : Log α)
    (hb : sb [] SinkOp.beginTx = true)
    (hd : writeAll sb [(SinkOp.beginTx, true)]
        (fun i => SinkOp.write ⟨ChangeType.delete, i⟩)
        (fun i => CollErr.deleteCollectionItemError i)
        ((muts.filter (fun m => m.type = ChangeType.delete)).map (·.modified))
      = (log2, none))
    (hc : sb log2 SinkOp.commitTx = true)
    (hsync : (runInitialSync sb q (removeOptimisticKeys getKey (muts.map (·.key)) refs)
        (log2 ++ [(SinkOp.commitTx, true)])).out ≠ .ok ()) :
    (sendTransaction getKey muts (.ok (.refetch true)) sb q refs []).out = .ok () ∧
    (sendTransaction getKey muts (.ok (.refetch true)) sb q refs []).refs =
      removeOptimisticKeys getKey (muts.map (·.key)) refs ∧
    (sendTransaction getKey muts (.ok (.refetch true)) sb q refs []).log =
      (runInitialSync sb q (removeOptimisticKeys getKey (muts.map (·.key)) refs)
        (log2 ++ [(SinkOp.commitTx, true)])).log := by
  rcases runInitialSync_spec sb q
      (removeOptimisticKeys getKey (muts.map (·.key)) refs)
      (log2 ++ [(SinkOp.commitTx, true)]) with ⟨hok, _⟩ | ⟨hrefs, e, he⟩
  · exact absurd hok hsync
  · refine ⟨?_, ?_, ?_⟩ <;>
      simp [sendTransaction, hb, hd, hc, he, hrefs]

/-- C9, witness: an update settlement with `{refetch: true}` whose re-run
sync fails at the remote query completes successfully, with the optimistic
key removed from the items. -/
theorem C9_witness :
    (sendTransaction todoKey [⟨1, ChangeType.update, ⟨1, "A"⟩⟩]
        (.ok (.refetch true)) sinkOkAll (.error ())
        ⟨[⟨1, "a"⟩, ⟨2, "b"⟩], none⟩ []).out = .ok () ∧
    (sendTransaction todoKey [⟨1, ChangeType.update, ⟨1, "A"⟩⟩]
        (.ok (.refetch true)) sinkOkAll (.error ())
        ⟨[⟨1, "a"⟩, ⟨2, "b"⟩], none⟩ []).refs =
      removeOptimisticKeys todoKey [1] ⟨[⟨1, "a"⟩, ⟨2, "b"⟩], none⟩ :=
  ⟨(C9_failed_refetch_sync_swallowed todoKey [⟨1, ChangeType.update, ⟨1, "A"⟩⟩]
      sinkOkAll (.error ()) (⟨[⟨1, "a"⟩, ⟨2, "b"⟩], none⟩ : Refs Todo)
      [(SinkOp.beginTx, true)] rfl rfl rfl (by decide)).1,
    (C9_failed_refetch_sync_swallowed todoKey [⟨1, ChangeType.update, ⟨1, "A"⟩⟩]
      sinkOkAll (.error ()) (⟨[⟨1, "a"⟩, ⟨2, "b"⟩], none⟩ : Refs Todo)
      [(SinkOp.beginTx, true)] rfl rfl rfl (by decide)).2.1⟩

/-- C10: during rollback with a present snapshot, `currentData` is set to the
snapshot before any re-insert write is attempted, so even when a re-insert
write or the final commit fails the in-memory restoration stands, the
failure is only logged (the outcome is success), and no successful commit is
recorded on the sink in that transaction. -/
theorem C10_restore_survives_sink_failure [DecidableEq κ] (getKey : α → κ)
    (muts : List (Mutation κ α)) (sb : SinkB α) (refs : Refs α) (orig : List α)
    (log2 : Log α)
    (hs : refs.originalData = some orig)
    (hb : sb [] SinkOp.beginTx = true)
    (hd : writeAll sb [(SinkOp.beginTx, true)]
        (fun i => SinkOp.write ⟨ChangeType.delete, i⟩)
        (fun i => CollErr.deleteCollectionItemError i)
        (muts.map (·.modified)) = (log2, none)) :
    (rollbackTransaction getKey muts sb refs []).refs.currentData = orig ∧
    (rollbackTransaction getKey muts sb refs []).out = .ok () ∧
    (∀ e, (writeAll sb log2 (fun i => SinkOp.write ⟨ChangeType.insert, i⟩)
        (fun i => CollErr.createCollectionItemError i)
        (orig.filter (fun i => (muts.map (·.key)).contains (getKey i)))).2 = some e →
      ¬(SinkOp.commitTx, true) ∈ (rollbackTransaction getKey muts sb refs []).log) ∧
    ((writeAll sb log2 (fun i => SinkOp.write ⟨ChangeType.insert, i⟩)
        (fun i => CollErr.createCollectionItemError i)
        (orig.filter (fun i => (muts.map (·.key)).contains (getKey i)))).2 = none →
      sb (writeAll sb log2 (fun i => SinkOp.write ⟨ChangeType.insert, i⟩)
        (fun i => CollErr.createCollectionItemError i)
        (orig.filter (fun i => (muts.map (·.key)).contains (getKey i)))).1
          SinkOp.commitTx = false →
      ¬(SinkOp.commitTx, true) ∈ (rollbackTransaction getKey muts sb refs []).log) := by
  have hlog2 := writeAll_none sb _ _ _ _ _ hd
  have hmem2 : ¬(SinkOp.commitTx, true) ∈ log2 := by simp [hlog2]
  obtain ⟨seg, hseg, hsegmem⟩ := writeAll_segment sb
    (fun i => SinkOp.write ⟨ChangeType.insert, i⟩)
    (fun i => CollErr.createCollectionItemError i)
    (orig.filter (fun i => (muts.map (·.key)).contains (getKey i))) log2
  have hmemseg : ¬(SinkOp.commitTx, true) ∈ seg := by
    intro hx
    obtain ⟨i, b, hib⟩ := hsegmem _ hx
    simp at hib
  rcases hw : writeAll sb log2 (fun i => SinkOp.write ⟨ChangeType.insert, i⟩)
      (fun i => CollErr.createCollectionItemError i)
      (orig.filter (fun i => (muts.map (·.key)).contains (getKey i))) with ⟨log3, res⟩
  rw [hw] at hseg
  cases res with
  | some e =>
    replace hseg : log3 = log2 ++ seg := hseg
    have hred : rollbackTransaction getKey muts sb refs [] =
        ⟨⟨orig, some orig⟩, log3, .ok ()⟩ := by
      simp only [rollbackTransaction, rollbackTransactionRaw, List.nil_append,
        hb, hd, hs, hw, eq_self_iff_true, if_true]
    refine ⟨by simp [hred], by simp [hred], ?_, ?_⟩
    · intro e' _
      rw [hred]
      intro hmm
      rw [hseg] at hmm
      rcases List.mem_append.mp hmm with hmm | hmm
      · exact hmem2 hmm
      · exact hmemseg hmm
    · intro hnone
      rw [hw] at hnone
      cases hnone
  | none =>
    replace hseg : log3 = log2 ++ seg := hseg
    have hred : rollbackTransaction getKey muts sb refs [] =
        ⟨⟨orig, some orig⟩,
          log3 ++ [(SinkOp.commitTx, sb log3 SinkOp.commitTx)], .ok ()⟩ := by
      cases hcm : sb log3 SinkOp.commitTx <;>
        simp only [rollbackTransaction, rollbackTransactionRaw, List.nil_append,
          hb, hd, hs, hw, hcm, Bool.false_eq_true, eq_self_iff_true,
          if_true, if_false]
    refine ⟨by simp [hred], by simp [hred], ?_, ?_⟩
    · intro e' hsome
      rw [hw] at hsome
      cases hsome
    · intro _ hcf
      simp only [hw] at hcf
      rw [hred]
      intro hmm
      rcases List.mem_append.mp hmm with hmm | hmm
      · rw [hseg] at hmm
        rcases List.mem_append.mp hmm with h2 | h2
        · exact hmem2 h2
        · exact hmemseg h2
      · rw [hcf] at hmm
        simp at hmm

/-- C10, witness: rollback under a sink whose commit throws still restores
`currentData` to the snapshot, completes successfully, and records no
successful commit. -/
theorem C10_witness :
    (rollbackTransaction todoKey [⟨2, ChangeType.update, ⟨2, "w"⟩⟩]
        (fun _ op => !(op = SinkOp.commitTx))
        (⟨[⟨2, "w"⟩], some [⟨1, "u"⟩, ⟨2, "v"⟩]⟩ : Refs Todo) []).refs.currentData
      = [⟨1, "u"⟩, ⟨2, "v"⟩] ∧
    (rollbackTransaction todoKey [⟨2, ChangeType.update, ⟨2, "w"⟩⟩]
        (fun _ op => !(op = SinkOp.commitTx))
        (⟨[⟨2, "w"⟩], some [⟨1, "u"⟩, ⟨2, "v"⟩]⟩ : Refs Todo) []).out = .ok () ∧
    ¬(SinkOp.commitTx, true) ∈ (rollbackTransaction todoKey
        [⟨2, ChangeType.update, ⟨2, "w"⟩⟩] (fun _ op => !(op = SinkOp.commitTx))
        (⟨[⟨2, "w"⟩], some [⟨1, "u"⟩, ⟨2, "v"⟩]⟩ : Refs Todo) []).log :=
  ⟨(C10_restore_survives_sink_failure todoKey [⟨2, ChangeType.update, ⟨2, "w"⟩⟩]
      (fun _ op => !(op = SinkOp.commitTx))
      (⟨[⟨2, "w"⟩], some [⟨1, "u"⟩, ⟨2, "v"⟩]⟩ : Refs Todo) [⟨1, "u"⟩, ⟨2, "v"⟩]
      [(SinkOp.beginTx, true),
        (SinkOp.write ⟨ChangeType.delete, ⟨2, "w"⟩⟩, true)] rfl rfl rfl).1,
    (C10_restore_survives_sink_failure todoKey [⟨2, ChangeType.update, ⟨2, "w"⟩⟩]
      (fun _ op => !(op = SinkOp.commitTx))
      (⟨[⟨2, "w"⟩], some [⟨1, "u"⟩, ⟨2, "v"⟩]⟩ : Refs Todo) [⟨1, "u"⟩, ⟨2, "v"⟩]
      [(SinkOp.beginTx, true),
        (SinkOp.write ⟨ChangeType.delete, ⟨2, "w"⟩⟩, true)] rfl rfl rfl).2.1,
    (C10_restore_survives_sink_failure todoKey [⟨2, ChangeType.update, ⟨2, "w"⟩⟩]
      (fun _ op => !(op = SinkOp.commitTx))
      (⟨[⟨2, "w"⟩], some [⟨1, "u"⟩, ⟨2, "v"⟩]⟩ : Refs Todo) [⟨1, "u"⟩, ⟨2, "v"⟩]
      [(SinkOp.beginTx, true),
        (SinkOp.write ⟨ChangeType.delete, ⟨2, "w"⟩⟩, true)] rfl rfl rfl).2.2.2
      (by decide) (by decide)⟩

end EffectColl
